import Mathlib

/-!
Shallow embedding of `src/recoversb.c` (the `clear_sb_ro` kernel module).

The module keeps one 64-byte global buffer `clear_device`, a sysfs store
callback `clear_device_store` (copy + NUL-terminate + trim trailing
newline/CR, then look up an ext4 superblock by device name and clear its
`MS_RDONLY` flag), a show callback `clear_device_show`, and the lookup
helper `find_ext4_superblock_by_dev`.

Modelling conventions:
- C strings are `List Nat` of their bytes before the terminating NUL
  (so `strcmp(a, b) == 0` on NUL-free contents is list equality);
- nullable pointers are `Option`; pointers whose pointee is never read
  (`bd_part`, `bd_part->info`) are `Bool` flags recording non-nullness;
- the set of mounted superblocks walked by `for_each_super` is a
  `List SuperBlock` in host iteration order;
- `s_flags` (C `unsigned long`) is a `Nat`; `x & ~MS_RDONLY` is
  `Nat.ldiff x MS_RDONLY`, which clears exactly the bits of the mask.
-/

/-- Bytes of the string literal `"ext4"` compared against `sb->s_type->name`. -/
def ext4Name : List Nat := [101, 120, 116, 52]

/-- The fields of `struct block_device` read by the module:
`bd_part` and `bd_part->info` only for their null checks (line 52),
`bd_disk->disk_name` as the device name compared at line 57. -/
structure BlockDevice where
  bd_part : Bool
  bd_part_info : Bool
  disk_name : List Nat
deriving DecidableEq, Repr

/-- The fields of `struct super_block` read or written by the module:
`s_bdev` (nullable, line 48), `s_type->name` (`s_type` nullable, line 50),
and `s_flags` (lines 101 and 106). -/
structure SuperBlock where
  s_bdev : Option BlockDevice
  s_type : Option (List Nat)
  s_flags : Nat
deriving DecidableEq, Repr

/-- Linux `MS_RDONLY` mount flag, bit 0. -/
def MS_RDONLY : Nat := 1

/-- The test `sb->s_flags & MS_RDONLY` at line 101, as a Boolean. -/
def is_read_only (sb : SuperBlock) : Bool := sb.s_flags &&& MS_RDONLY != 0

/-- The update `sb->s_flags &= ~MS_RDONLY` at line 106:
`Nat.ldiff f m` keeps the bits of `f` outside the mask `m`. -/
def clearRdonlyFlags (f : Nat) : Nat := Nat.ldiff f MS_RDONLY

/-- Outcome of the flag mutation, per the two log branches at
lines 101-115: the flag was cleared, or it was already clear. -/
inductive Outcome where
  | Cleared
  | AlreadyWritable
deriving DecidableEq, Repr

/-- The read-only-flag mutator (spec section 4.2, `clear_read_only`),
embedded from the `if (sb->s_flags & MS_RDONLY)` block at lines 101-115:
returns the updated record and which branch was taken. -/
def clear_read_only (sb : SuperBlock) : SuperBlock × Outcome :=
  if is_read_only sb then
    ({ sb with s_flags := clearRdonlyFlags sb.s_flags }, Outcome.Cleared)
  else
    (sb, Outcome.AlreadyWritable)

/-- The per-record filter of the loop body at lines 47-66:
`sb->s_bdev` non-null, `sb->s_type` non-null with name `"ext4"`,
`bd_part` and `bd_part->info` non-null, and disk name equal to the query. -/
def sbMatches (devname : List Nat) (sb : SuperBlock) : Bool :=
  match sb.s_bdev with
  | none => false
  | some bd =>
    match sb.s_type with
    | none => false
    | some tname =>
      tname == ext4Name && bd.bd_part && bd.bd_part_info
        && bd.disk_name == devname

/-- Embedding of `find_ext4_superblock_by_dev` (lines 37-69): walk the
superblock list in order and return the first record passing `sbMatches`,
or `none` (the C `NULL`) when no record passes. -/
def find_ext4_superblock_by_dev : List SuperBlock → List Nat → Option SuperBlock
  | [], _ => none
  | sb :: rest, devname =>
    if sbMatches devname sb then some sb
    else find_ext4_superblock_by_dev rest devname

/-- Index (position in host iteration order) of the record that
`find_ext4_superblock_by_dev` returns, used to state first-match facts. -/
def find_ext4_superblock_idx : List SuperBlock → List Nat → Option Nat
  | [], _ => none
  | sb :: rest, devname =>
    if sbMatches devname sb then some 0
    else (find_ext4_superblock_idx rest devname).map (· + 1)

/-- Lines 94-115 of the store callback: look up the superblock and, when
found, mutate it in place through the returned pointer. Returns the new
superblock list together with the mutation outcome (`none` when the
lookup failed, the NotFound log branch at lines 95-98). -/
def applyClear (devname : List Nat) : List SuperBlock → List SuperBlock × Option Outcome
  | [] => ([], none)
  | sb :: rest =>
    if sbMatches devname sb then
      let r := clear_read_only sb
      (r.1 :: rest, some r.2)
    else
      let r := applyClear devname rest
      (sb :: r.1, r.2)

/-- Bytes written into `dst` by `strncpy(dst, src, n)`: the bytes of `src`
before its first NUL, capped at `n`, padded with NUL bytes up to `n`. -/
def strncpyBytes (src : List Nat) (n : Nat) : List Nat :=
  let pre := (src.take n).takeWhile (fun c => c != 0)
  pre ++ List.replicate (n - pre.length) 0

/-- Effect of the trim loop at lines 86-89 on the copied region: the loop
overwrites a maximal suffix of newline (10) / carriage-return (13) bytes
with NUL, so the surviving region is the list with that suffix dropped. -/
def trimTrailingNl (l : List Nat) : List Nat :=
  (l.reverse.dropWhile (fun c => c == 10 || c == 13)).reverse

/-- The C-string contents of `clear_device` after the store callback ran
on input `buf` (lines 79-89): `len = min(count, 63)` bytes copied by
`strncpy`, a NUL written at index `len`, the trim loop applied, and the
visible string being everything before the first NUL. -/
def storedDeviceName (buf : List Nat) : List Nat :=
  let len := min buf.length (64 - 1)
  (trimTrailingNl (strncpyBytes buf len)).takeWhile (fun c => c != 0)

/-- Indices of the `clear_device` buffer written by one run of the store
callback on input `buf`: `strncpy` writes indices `0..len-1`, the explicit
terminator writes index `len` (line 83), and the trim loop writes one NUL
per trimmed byte, at indices `len-1`, `len-2`, ... (line 87). -/
def storeWriteIndices (buf : List Nat) : List Nat :=
  let len := min buf.length (64 - 1)
  let copied := strncpyBytes buf len
  let trimmed := copied.length - (trimTrailingNl copied).length
  List.range (len + 1) ++ (List.range trimmed).map (fun j => len - 1 - j)

/-- Result of the sysfs store callback: the superblock list after any
mutation, the new `clear_device` contents, the returned byte count, and
the mutation outcome (`none` when no superblock matched). -/
structure StoreResult where
  supers : List SuperBlock
  stored : List Nat
  ret : Nat
  outcome : Option Outcome
deriving DecidableEq, Repr

/-- Embedding of `clear_device_store` (lines 74-118) on input buffer
`buf` of `count = buf.length` bytes against superblock list `supers`. -/
def clear_device_store (supers : List SuperBlock) (buf : List Nat) : StoreResult :=
  let stored := storedDeviceName buf
  let r := applyClear stored supers
  { supers := r.1, stored := stored, ret := buf.length, outcome := r.2 }

/-- Linux `PAGE_SIZE`, the bound passed to `scnprintf` at line 127. -/
def PAGE_SIZE : Nat := 4096

/-- Embedding of `clear_device_show` (lines 123-128): the bytes produced
by `scnprintf(buf, PAGE_SIZE, "%s\n", clear_device)`, i.e. the stored
name followed by a newline, capped at `PAGE_SIZE - 1` bytes. -/
def clear_device_show (clear_device : List Nat) : List Nat :=
  (clear_device ++ [10]).take (PAGE_SIZE - 1)

/-- Follows the spec words for claim C6 only: storing is said to first
trim trailing newline/CR from the raw input and then truncate the result
to the 63-byte bound. Compared against `storedDeviceName`. -/
def specTrimThenTruncate (buf : List Nat) : List Nat :=
  (trimTrailingNl buf).take (64 - 1)

/-! ### Helper lemmas -/

/-- Unfolding of the match filter into its five conditions. -/
lemma sbMatches_iff (dev : List Nat) (sb : SuperBlock) :
    sbMatches dev sb = true ↔
      ∃ bd, sb.s_bdev = some bd ∧ sb.s_type = some ext4Name
        ∧ bd.bd_part = true ∧ bd.bd_part_info = true ∧ bd.disk_name = dev := by
  rcases sb with ⟨bdev, stype, flags⟩
  rcases bdev with _ | bd
  · simp [sbMatches]
  · rcases stype with _ | t
    · simp [sbMatches]
    · simp [sbMatches, and_assoc]

/-- Clearing the mask bits with `ldiff` leaves no mask bit set. -/
lemma clearRdonlyFlags_and (f : Nat) : clearRdonlyFlags f &&& MS_RDONLY = 0 := by
  have h := Nat.testBit_ldiff f 1 0
  simp [clearRdonlyFlags, MS_RDONLY, Nat.testBit] at h ⊢
  omega

/-- The mutator is the identity (with `AlreadyWritable`) on clear records. -/
lemma clear_read_only_of_not (sb : SuperBlock) (h : is_read_only sb = false) :
    clear_read_only sb = (sb, Outcome.AlreadyWritable) := by
  simp [clear_read_only, h]

/-- After one application of the mutator the flag is always clear. -/
lemma is_read_only_after_clear (sb : SuperBlock) :
    is_read_only ((clear_read_only sb).1) = false := by
  cases hb : is_read_only sb
  · rw [clear_read_only_of_not sb hb]
    exact hb
  · have hb2 : ¬ (sb.s_flags &&& MS_RDONLY = 0) := by
      simpa [is_read_only] using hb
    simp [clear_read_only, is_read_only, hb2, clearRdonlyFlags_and]

/-- A list in which no record passes the filter makes the scanner miss. -/
lemma find_eq_none_of_no_match (supers : List SuperBlock) (dev : List Nat)
    (h : ∀ sb ∈ supers, sbMatches dev sb = false) :
    find_ext4_superblock_by_dev supers dev = none := by
  induction supers with
  | nil => rfl
  | cons a rest ih =>
    have ha := h a (List.mem_cons_self a rest)
    simp [find_ext4_superblock_by_dev, ha]
    exact ih (fun x hx => h x (List.mem_cons_of_mem _ hx))

/-- A list in which no record passes the filter is left unchanged. -/
lemma applyClear_of_no_match (dev : List Nat) (supers : List SuperBlock)
    (h : ∀ sb ∈ supers, sbMatches dev sb = false) :
    applyClear dev supers = (supers, none) := by
  induction supers with
  | nil => rfl
  | cons a rest ih =>
    have ha := h a (List.mem_cons_self a rest)
    have ih2 := ih (fun x hx => h x (List.mem_cons_of_mem _ hx))
    simp [applyClear, ha, ih2]

/-- A record returned by the scanner is in the list and passes the filter. -/
lemma find_some_matches (supers : List SuperBlock) (dev : List Nat)
    (sb : SuperBlock) (h : find_ext4_superblock_by_dev supers dev = some sb) :
    sb ∈ supers ∧ sbMatches dev sb = true := by
  induction supers with
  | nil => simp [find_ext4_superblock_by_dev] at h
  | cons a rest ih =>
    cases hb : sbMatches dev a with
    | false =>
      simp [find_ext4_superblock_by_dev, hb] at h
      rcases ih h with ⟨h1, h2⟩
      exact ⟨List.mem_cons_of_mem _ h1, h2⟩
    | true =>
      simp [find_ext4_superblock_by_dev, hb] at h
      subst h
      exact ⟨List.mem_cons_self a rest, hb⟩

/-- Taking `min(count, 63)` bytes is the same as taking 63 bytes. -/
lemma take_min_63 (buf : List Nat) :
    buf.take (min buf.length 63) = buf.take 63 := by
  rcases Nat.le_total buf.length 63 with hle | hle
  · rw [Nat.min_eq_left hle, List.take_length, List.take_of_length_le hle]
  · rw [Nat.min_eq_right hle]

/-- Every byte surviving the trim loop was in the copied region. -/
lemma mem_trimTrailingNl {x : Nat} {l : List Nat} (h : x ∈ trimTrailingNl l) :
    x ∈ l := by
  simp only [trimTrailingNl, List.mem_reverse] at h
  exact List.mem_reverse.1 ((List.dropWhile_sublist _).subset h)

/-- On an input whose first 63 bytes are NUL-free, the stored name is the
63-byte truncation of the input with trailing newline/CR bytes trimmed. -/
lemma stored_eq_trim_take (buf : List Nat) (h : ∀ c ∈ buf.take 63, c ≠ 0) :
    storedDeviceName buf = trimTrailingNl (buf.take 63) := by
  have hcopy : strncpyBytes buf (min buf.length (64 - 1)) = buf.take 63 := by
    show strncpyBytes buf (min buf.length 63) = buf.take 63
    have hpre : (buf.take (min buf.length 63)).takeWhile (fun c => c != 0)
        = buf.take 63 := by
      rw [take_min_63]
      exact List.takeWhile_eq_self_iff.2 (fun x hx => by simpa using h x hx)
    have hlen : (buf.take 63).length = min buf.length 63 := by
      rw [List.length_take, Nat.min_comm]
    simp only [strncpyBytes, hpre, hlen, Nat.sub_self, List.replicate_zero,
      List.append_nil]
  show (trimTrailingNl (strncpyBytes buf (min buf.length (64 - 1)))).takeWhile
      (fun c => c != 0) = trimTrailingNl (buf.take 63)
  rw [hcopy]
  exact List.takeWhile_eq_self_iff.2
    (fun x hx => by simpa using h x (mem_trimTrailingNl hx))

/-- Every buffer index written by the store callback is inside the
64-byte `clear_device` array. -/
lemma storeWriteIndices_lt (buf : List Nat) :
    ∀ i ∈ storeWriteIndices buf, i < 64 := by
  intro i hi
  have hlen : min buf.length (64 - 1) ≤ 63 := Nat.min_le_right _ _
  simp only [storeWriteIndices, List.mem_append, List.mem_range,
    List.mem_map] at hi
  rcases hi with hi | ⟨j, hj, rfl⟩
  · omega
  · omega

/-- When some record passes the filter, the scanner returns the first one
in iteration order: a witnessing index whose record passes, with every
earlier record failing the filter. -/
lemma find_first_match (supers : List SuperBlock) (dev : List Nat)
    (h : ∃ sb ∈ supers, sbMatches dev sb = true) :
    ∃ i sb, find_ext4_superblock_idx supers dev = some i
      ∧ supers[i]? = some sb
      ∧ find_ext4_superblock_by_dev supers dev = some sb
      ∧ sbMatches dev sb = true
      ∧ ∀ j sb', j < i → supers[j]? = some sb' → sbMatches dev sb' = false := by
  induction supers with
  | nil => simp at h
  | cons a rest ih =>
    cases hm : sbMatches dev a with
    | true =>
      refine ⟨0, a, ?_, by simp, ?_, hm, ?_⟩
      · simp [find_ext4_superblock_idx, hm]
      · simp [find_ext4_superblock_by_dev, hm]
      · intro j sb' hj _
        exact absurd hj (Nat.not_lt_zero j)
    | false =>
      have h2 : ∃ sb ∈ rest, sbMatches dev sb = true := by
        rcases h with ⟨sb, hmem, hsb⟩
        rcases List.mem_cons.1 hmem with rfl | hmem2
        · rw [hm] at hsb
          exact absurd hsb (by simp)
        · exact ⟨sb, hmem2, hsb⟩
      rcases ih h2 with ⟨i, sb, h1, hget, hfind, hmatch, hfirst⟩
      refine ⟨i + 1, sb, ?_, ?_, ?_, hmatch, ?_⟩
      · simp [find_ext4_superblock_idx, hm, h1]
      · simpa [List.getElem?_cons_succ] using hget
      · simp [find_ext4_superblock_by_dev, hm, hfind]
      · intro j sb' hj hget2
        cases j with
        | zero =>
          have ha : a = sb' := by simpa using hget2
          rw [← ha]
          exact hm
        | succ k =>
          have hget3 : rest[k]? = some sb' := by
            simpa [List.getElem?_cons_succ] using hget2
          exact hfirst k sb' (Nat.lt_of_succ_lt_succ hj) hget3

/-- Sample record data used by the witness theorems below. -/
def sda1Bytes : List Nat := [115, 100, 97, 49]

/-- Bytes of `"sdb1"`. -/
def sdb1Bytes : List Nat := [115, 100, 98, 49]

/-- Bytes of `"sda1\n"`. -/
def sda1NlBytes : List Nat := [115, 100, 97, 49, 10]

/-- Bytes of `"xfs"`. -/
def xfsName : List Nat := [120, 102, 115]

/-- An ext4 superblock with full partition metadata, given disk name and
flags, used by the witness theorems below. -/
def sampleExt4 (name : List Nat) (flags : Nat) : SuperBlock :=
  ⟨some ⟨true, true, name⟩, some ext4Name, flags⟩

/-! ### Claim theorems -/

/-- C1: the mutator `clear_read_only` reads the read-only flag; if set it
clears it and reports `Cleared` (touching no other field), if clear it
returns `AlreadyWritable` and leaves the record unchanged; after one
application the flag is clear, so a second application reports
`AlreadyWritable` and changes nothing (idempotence after first use). -/
theorem claim_C1_clear_read_only (sb : SuperBlock) :
    (is_read_only sb = true →
      (clear_read_only sb).2 = Outcome.Cleared
        ∧ is_read_only (clear_read_only sb).1 = false
        ∧ (clear_read_only sb).1.s_bdev = sb.s_bdev
        ∧ (clear_read_only sb).1.s_type = sb.s_type)
    ∧ (is_read_only sb = false → clear_read_only sb = (sb, Outcome.AlreadyWritable))
    ∧ is_read_only (clear_read_only sb).1 = false
    ∧ clear_read_only ((clear_read_only sb).1)
        = ((clear_read_only sb).1, Outcome.AlreadyWritable) := by
  refine ⟨?_, clear_read_only_of_not sb, is_read_only_after_clear sb, ?_⟩
  · intro h
    refine ⟨?_, is_read_only_after_clear sb, ?_, ?_⟩ <;>
      simp [clear_read_only, h]
  · exact clear_read_only_of_not _ (is_read_only_after_clear sb)

/-- Witness for C1 at a concrete read-only record. -/
theorem claim_C1_witness :
    is_read_only ⟨none, none, 1⟩ = true
    ∧ (clear_read_only ⟨none, none, 1⟩).2 = Outcome.Cleared
    ∧ is_read_only (clear_read_only ⟨none, none, 1⟩).1 = false
    ∧ clear_read_only ((clear_read_only ⟨none, none, 1⟩).1)
        = ((clear_read_only ⟨none, none, 1⟩).1, Outcome.AlreadyWritable) :=
  ⟨by decide,
   ((claim_C1_clear_read_only ⟨none, none, 1⟩).1 (by decide)).1,
   (claim_C1_clear_read_only ⟨none, none, 1⟩).2.2.1,
   (claim_C1_clear_read_only ⟨none, none, 1⟩).2.2.2⟩

/-- C2: when the stored device name is not the backing-device name of any
ext4 mount record, the scanner returns not-found, and the write leaves
the whole superblock list (every field of every record) unchanged. -/
theorem claim_C2_not_found_no_mutation (supers : List SuperBlock)
    (buf : List Nat)
    (h : ∀ sb ∈ supers, sb.s_type = some ext4Name →
      Option.map BlockDevice.disk_name sb.s_bdev ≠ some (storedDeviceName buf)) :
    find_ext4_superblock_by_dev supers (storedDeviceName buf) = none
    ∧ (clear_device_store supers buf).supers = supers := by
  have hm : ∀ sb ∈ supers, sbMatches (storedDeviceName buf) sb = false := by
    intro sb hs
    cases hb : sbMatches (storedDeviceName buf) sb with
    | false => rfl
    | true =>
      exfalso
      rcases (sbMatches_iff _ _).1 hb with ⟨bd, h1, h2, _, _, h5⟩
      exact h sb hs h2 (by simp [h1, h5])
  refine ⟨find_eq_none_of_no_match _ _ hm, ?_⟩
  show (applyClear (storedDeviceName buf) supers).1 = supers
  rw [applyClear_of_no_match _ _ hm]

/-- Witness for C2: one ext4 record on `"sdb1"`, write of `"sda1\n"`. -/
theorem claim_C2_witness :
    (∀ sb ∈ [sampleExt4 sdb1Bytes 1], sb.s_type = some ext4Name →
      Option.map BlockDevice.disk_name sb.s_bdev
        ≠ some (storedDeviceName sda1NlBytes))
    ∧ find_ext4_superblock_by_dev [sampleExt4 sdb1Bytes 1]
        (storedDeviceName sda1NlBytes) = none
    ∧ (clear_device_store [sampleExt4 sdb1Bytes 1] sda1NlBytes).supers
        = [sampleExt4 sdb1Bytes 1] :=
  ⟨by decide,
   (claim_C2_not_found_no_mutation [sampleExt4 sdb1Bytes 1] sda1NlBytes
     (by decide)).1,
   (claim_C2_not_found_no_mutation [sampleExt4 sdb1Bytes 1] sda1NlBytes
     (by decide)).2⟩

/-- C3: any record the scanner returns has filesystem kind `"ext4"`; a
record of another kind is never returned, whatever the queried name. -/
theorem claim_C3_only_ext4_matched (supers : List SuperBlock)
    (dev : List Nat) (sb : SuperBlock)
    (h : find_ext4_superblock_by_dev supers dev = some sb) :
    sb.s_type = some ext4Name := by
  rcases find_some_matches supers dev sb h with ⟨_, hmatch⟩
  rcases (sbMatches_iff _ _).1 hmatch with ⟨bd, _, h2, _⟩
  exact h2

/-- Witness for C3: an xfs record on `"sda1"` is skipped, the ext4 record
behind it is returned. -/
theorem claim_C3_witness :
    find_ext4_superblock_by_dev
      [⟨some ⟨true, true, sda1Bytes⟩, some xfsName, 1⟩, sampleExt4 sda1Bytes 1]
      sda1Bytes = some (sampleExt4 sda1Bytes 1)
    ∧ (sampleExt4 sda1Bytes 1).s_type = some ext4Name :=
  ⟨by decide,
   claim_C3_only_ext4_matched
     [⟨some ⟨true, true, sda1Bytes⟩, some xfsName, 1⟩, sampleExt4 sda1Bytes 1]
     sda1Bytes (sampleExt4 sda1Bytes 1) (by decide)⟩

/-- C4: round-trip of the control surface — storing the raw bytes
`"sda1\n"` and then reading yields exactly the bytes `"sda1\n"`: the
newline is stripped on store and one newline is re-appended on show. -/
theorem claim_C4_roundtrip (supers : List SuperBlock) :
    clear_device_show ((clear_device_store supers sda1NlBytes).stored)
      = sda1NlBytes := rfl

/-- C7: the store callback always returns the full input byte count, for
every buffer and every superblock list, in the not-found, cleared and
already-writable cases alike. -/
theorem claim_C7_ret_is_count (supers : List SuperBlock) (buf : List Nat) :
    (clear_device_store supers buf).ret = buf.length := rfl

/-- Input refuting C5 as stated: 62 `a` bytes, a newline, then `b`. -/
def longANl : List Nat := List.replicate 62 97 ++ [10, 98]

/-- Counterexample to C5 as stated: on an input longer than 63 bytes
whose 63rd byte is a newline, the stored name is not the first 63 bytes
of the input, because the trim loop runs after the truncation and strips
that newline. -/
theorem claim_C5_counterexample :
    63 < longANl.length
    ∧ storedDeviceName longANl ≠ longANl.take 63 := by
  constructor
  · decide
  · decide

/-- C5 amended: for inputs longer than 63 bytes whose first 63 bytes are
NUL-free, the stored name is the first 63 bytes of the input with any
trailing newline/CR bytes trimmed, and every buffer index the callback
writes is below 64 (no overrun of the `clear_device` storage). -/
theorem claim_C5_amended_truncation (buf : List Nat)
    (h1 : 63 < buf.length) (h2 : ∀ c ∈ buf.take 63, c ≠ 0) :
    (buf.take 63).length = 63
    ∧ storedDeviceName buf = trimTrailingNl (buf.take 63)
    ∧ ∀ i ∈ storeWriteIndices buf, i < 64 := by
  refine ⟨?_, stored_eq_trim_take buf h2, storeWriteIndices_lt buf⟩
  rw [List.length_take]
  omega

/-- Witness for the amended C5 at a 64-byte all-`a` input. -/
theorem claim_C5_witness :
    63 < (List.replicate 64 97 : List Nat).length
    ∧ (((List.replicate 64 97 : List Nat).take 63).length = 63
      ∧ storedDeviceName (List.replicate 64 97)
          = trimTrailingNl ((List.replicate 64 97 : List Nat).take 63)
      ∧ ∀ i ∈ storeWriteIndices (List.replicate 64 97), i < 64) :=
  ⟨by decide,
   claim_C5_amended_truncation (List.replicate 64 97) (by decide) (by decide)⟩

/-- Input refuting C6 as stated: 62 `b` bytes, a carriage return, `c`. -/
def longBCr : List Nat := List.replicate 62 98 ++ [13, 99]

/-- Counterexample to C6 as stated: the code truncates before it trims,
so on this input the stored name differs from trim-then-truncate: the CR
at index 62 becomes trailing only after truncation and is trimmed, while
the spec-ordered computation keeps it. -/
theorem claim_C6_counterexample :
    storedDeviceName longBCr ≠ specTrimThenTruncate longBCr := by decide

/-- C6 amended: for every input whose first 63 bytes are NUL-free, the
stored name is computed by first truncating the input to the 63-byte
bound and then trimming trailing newline/CR bytes — truncate before
trim, the reverse of the order the claim states. -/
theorem claim_C6_amended_truncate_then_trim (buf : List Nat)
    (h : ∀ c ∈ buf.take 63, c ≠ 0) :
    storedDeviceName buf = trimTrailingNl (buf.take 63) :=
  stored_eq_trim_take buf h

/-- Witness for the amended C6 at the input `"sda1\r\n"`. -/
theorem claim_C6_witness :
    (∀ c ∈ ([115, 100, 97, 49, 13, 10] : List Nat).take 63, c ≠ 0)
    ∧ storedDeviceName [115, 100, 97, 49, 13, 10]
        = trimTrailingNl (([115, 100, 97, 49, 13, 10] : List Nat).take 63) :=
  ⟨by decide,
   claim_C6_amended_truncate_then_trim [115, 100, 97, 49, 13, 10] (by decide)⟩

/-- Counterexample to C8 as stated: a mount set containing an ext4 record
whose backing-device disk name is the empty string makes the scanner
return that record for the empty query, not not-found. -/
theorem claim_C8_counterexample :
    find_ext4_superblock_by_dev
      [⟨some ⟨true, true, []⟩, some ext4Name, 1⟩] [] ≠ none := by decide

/-- C8 amended: for every mount set in which no record has an empty
backing-device disk name, the scanner queried with the empty string
returns not-found. -/
theorem claim_C8_amended_empty_query (supers : List SuperBlock)
    (h : ∀ sb ∈ supers, Option.map BlockDevice.disk_name sb.s_bdev ≠ some []) :
    find_ext4_superblock_by_dev supers [] = none := by
  refine find_eq_none_of_no_match supers [] ?_
  intro sb hs
  cases hb : sbMatches [] sb with
  | false => rfl
  | true =>
    exfalso
    rcases (sbMatches_iff _ _).1 hb with ⟨bd, h1, _, _, _, h5⟩
    exact h sb hs (by simp [h1, h5])

/-- Witness for the amended C8 at a one-record ext4 mount set. -/
theorem claim_C8_witness :
    (∀ sb ∈ [sampleExt4 sda1Bytes 1],
      Option.map BlockDevice.disk_name sb.s_bdev ≠ some [])
    ∧ find_ext4_superblock_by_dev [sampleExt4 sda1Bytes 1] [] = none :=
  ⟨by decide,
   claim_C8_amended_empty_query [sampleExt4 sda1Bytes 1] (by decide)⟩

/-- C9: when at least one record passes the match predicate the scanner
never returns not-found, and the record it returns is the first match in
the host iteration order: every earlier record fails the predicate. -/
theorem claim_C9_first_match (supers : List SuperBlock) (dev : List Nat)
    (h : ∃ sb ∈ supers, sbMatches dev sb = true) :
    ∃ i sb, find_ext4_superblock_idx supers dev = some i
      ∧ supers[i]? = some sb
      ∧ find_ext4_superblock_by_dev supers dev = some sb
      ∧ sbMatches dev sb = true
      ∧ ∀ j sb', j < i → supers[j]? = some sb' → sbMatches dev sb' = false :=
  find_first_match supers dev h

/-- Witness for C9 at a two-match mount set. -/
theorem claim_C9_witness :
    (∃ sb ∈ [sampleExt4 sda1Bytes 1, sampleExt4 sda1Bytes 0],
      sbMatches sda1Bytes sb = true)
    ∧ ∃ i sb,
        find_ext4_superblock_idx
          [sampleExt4 sda1Bytes 1, sampleExt4 sda1Bytes 0] sda1Bytes = some i
        ∧ [sampleExt4 sda1Bytes 1, sampleExt4 sda1Bytes 0][i]? = some sb
        ∧ find_ext4_superblock_by_dev
            [sampleExt4 sda1Bytes 1, sampleExt4 sda1Bytes 0] sda1Bytes = some sb
        ∧ sbMatches sda1Bytes sb = true
        ∧ ∀ j sb', j < i →
            [sampleExt4 sda1Bytes 1, sampleExt4 sda1Bytes 0][j]? = some sb'
            → sbMatches sda1Bytes sb' = false :=
  ⟨by decide,
   claim_C9_first_match [sampleExt4 sda1Bytes 1, sampleExt4 sda1Bytes 0]
     sda1Bytes (by decide)⟩

/-- C10 (implicit): the scanner only returns records whose backing device
carries partition metadata — both `bd_part` and `bd_part->info` non-null
— so an ext4 record with a matching disk name but missing metadata is
never the returned record. -/
theorem claim_C10_partition_metadata_required (supers : List SuperBlock)
    (dev : List Nat) (sb : SuperBlock)
    (h : find_ext4_superblock_by_dev supers dev = some sb) :
    ∃ bd, sb.s_bdev = some bd ∧ bd.bd_part = true ∧ bd.bd_part_info = true := by
  rcases find_some_matches supers dev sb h with ⟨_, hmatch⟩
  rcases (sbMatches_iff _ _).1 hmatch with ⟨bd, h1, _, h3, h4, _⟩
  exact ⟨bd, h1, h3, h4⟩

/-- Witness for C10: an ext4 record on `"sda1"` without partition
metadata is skipped; the scanner returns the later full record. -/
theorem claim_C10_witness :
    find_ext4_superblock_by_dev
      [⟨some ⟨false, false, sda1Bytes⟩, some ext4Name, 1⟩,
        sampleExt4 sda1Bytes 1] sda1Bytes = some (sampleExt4 sda1Bytes 1)
    ∧ ∃ bd, (sampleExt4 sda1Bytes 1).s_bdev = some bd
        ∧ bd.bd_part = true ∧ bd.bd_part_info = true :=
  ⟨by decide,
   claim_C10_partition_metadata_required
     [⟨some ⟨false, false, sda1Bytes⟩, some ext4Name, 1⟩,
       sampleExt4 sda1Bytes 1] sda1Bytes (sampleExt4 sda1Bytes 1) (by decide)⟩
